import Mathlib

/-!
# Verification of the `warp-rate-limit` fixed-window rate limiter

This file gives a shallow embedding of the rate-limiting core of the
`warp-rate-limit` crate (`src/lib.rs`) and proves the specified properties
about it.

## Modelling conventions

* `Instant` (Rust's monotonic clock) and `DateTime<Utc>` (the wall clock)
  are both modelled as `Nat` nanoseconds counted from the Unix epoch, and the
  two clock reads inside one `check_rate_limit` call (`Instant::now()` at the
  top and the `Utc::now()` calls while building the result) are modelled as
  the same value `now`.  `Duration` is a `Nat` of nanoseconds;
  `Duration::as_secs` is division by `1000000000`.  `chrono`'s
  `DateTime::timestamp` is likewise division by `1000000000`.
* `Instant::duration_since` returns zero when the other instant is later,
  which is exactly `Nat` truncated subtraction.  The `Duration`
  subtraction `window - duration_since(..)` only happens under the guard
  `duration_since(..) <= window`, where it agrees with `Nat` subtraction.
* `u32` subtraction is modelled by `sub32`, wrapping modulo `2 ^ 32`
  (release-profile semantics; a debug build would abort at the same inputs).
  The increment `count + 1` is only executed under the guard
  `count < max_requests`, so for `u32`-ranged state it cannot overflow and is
  modelled as plain `Nat` addition.
* The `HashMap<String, (Instant, u32)>` behind the `RwLock` is modelled as a
  total function `String → Option (Nat × Nat)`; `HashMap::insert` is
  pointwise update.  Because `check_rate_limit` holds the write lock for the
  whole read-modify-write, one call is one atomic transformation of this map.
* `chrono::Duration::from_std(..).unwrap()` succeeds for every duration below
  about 2^63 milliseconds and is modelled as the identity embedding.
* `DateTime::to_rfc2822` is modelled by `toRfc2822`, a full rendering of a
  Unix timestamp into the `Day, DD Mon YYYY HH:MM:SS +0000` shape, using the
  standard civil-from-days calendar algorithm.
-/

namespace WarpRateLimit

/-- Wrapping `u32` subtraction: `a.wrapping_sub b` for `a b < 2 ^ 32`. -/
def sub32 (a b : Nat) : Nat := (a + 4294967296 - b) % 4294967296

/-- `pub enum RetryAfterFormat { HttpDate, Seconds }` from `src/lib.rs`. -/
inductive RetryAfterFormat where
  | HttpDate
  | Seconds
deriving DecidableEq, Repr

/-- `pub struct RateLimitConfig` from `src/lib.rs`: quota, window duration
(nanoseconds) and retry-after rendering policy. -/
structure RateLimitConfig where
  max_requests : Nat
  window : Nat
  retry_after_format : RetryAfterFormat
deriving DecidableEq, Repr

/-- `pub struct RateLimitInfo` from `src/lib.rs`.  `reset_timestamp` is the
`i64` Unix-seconds value; all times here are nonnegative so `Nat` is used. -/
structure RateLimitInfo where
  retry_after : String
  limit : Nat
  remaining : Nat
  reset_timestamp : Nat
  retry_after_format : RetryAfterFormat
deriving DecidableEq, Repr

/-- `pub struct RateLimitRejection` from `src/lib.rs`.  `retry_after` is a
`Duration` in nanoseconds, `reset_time` a `DateTime<Utc>` in nanoseconds
since the epoch. -/
structure RateLimitRejection where
  retry_after : Nat
  limit : Nat
  reset_time : Nat
  retry_after_format : RetryAfterFormat
deriving DecidableEq, Repr

/-- The `Result<RateLimitInfo, Rejection>` returned by `check_rate_limit`;
the only rejection ever built there is a `RateLimitRejection`. -/
inductive CheckResult where
  | ok (info : RateLimitInfo)
  | err (rejection : RateLimitRejection)
deriving DecidableEq, Repr

/-- `remaining` of an admitted outcome, `none` on rejection. -/
def CheckResult.remainingOf : CheckResult → Option Nat
  | .ok info => some info.remaining
  | .err _ => none

/-- `reset_timestamp` of an admitted outcome, `none` on rejection. -/
def CheckResult.resetOf : CheckResult → Option Nat
  | .ok info => some info.reset_timestamp
  | .err _ => none

/-- `retry_after` duration of a rejection, `none` on admission. -/
def CheckResult.errRetryAfter : CheckResult → Option Nat
  | .ok _ => none
  | .err rejection => some rejection.retry_after

/-- Whether the outcome is a rejection. -/
def CheckResult.isErr : CheckResult → Bool
  | .ok _ => false
  | .err _ => true

/-- The `HashMap<String, (Instant, u32)>` guarded by the limiter's `RwLock`,
as a map from key to `(window start, count)`. -/
def Registry : Type := String → Option (Nat × Nat)

/-- `HashMap::new()`. -/
def emptyReg : Registry := fun _ => none

/-- `HashMap::insert` (pointwise functional update). -/
def Registry.insert (st : Registry) (key : String) (v : Nat × Nat) : Registry :=
  fun k => if k = key then some v else st k

/-! ## RFC 2822 rendering (`chrono::DateTime::to_rfc2822`) -/

/-- Two-digit zero padding as used in the RFC 2822 date rendering. -/
def pad2 (n : Nat) : String :=
  if n < 10 then "0" ++ Nat.repr n else Nat.repr n

/-- Weekday abbreviation for a day count since 1970-01-01 (a Thursday). -/
def weekdayAbbrev (days : Nat) : String :=
  match (days + 4) % 7 with
  | 0 => "Sun"
  | 1 => "Mon"
  | 2 => "Tue"
  | 3 => "Wed"
  | 4 => "Thu"
  | 5 => "Fri"
  | _ => "Sat"

/-- Month abbreviation, months numbered 1–12. -/
def monthAbbrev (m : Nat) : String :=
  match m with
  | 1 => "Jan"
  | 2 => "Feb"
  | 3 => "Mar"
  | 4 => "Apr"
  | 5 => "May"
  | 6 => "Jun"
  | 7 => "Jul"
  | 8 => "Aug"
  | 9 => "Sep"
  | 10 => "Oct"
  | 11 => "Nov"
  | _ => "Dec"

/-- Proleptic-Gregorian `(year, month, day)` from a day count since
1970-01-01 (the standard civil-from-days algorithm). -/
def civilFromDays (z0 : Nat) : Nat × Nat × Nat :=
  let z := z0 + 719468
  let era := z / 146097
  let doe := z % 146097
  let yoe := (doe - doe / 1460 + doe / 36524 - doe / 146097) / 365
  let y := yoe + era * 400
  let doy := doe - (365 * yoe + yoe / 4 - yoe / 100)
  let mp := (5 * doy + 2) / 153
  let d := doy - (153 * mp + 2) / 5 + 1
  let m := if mp < 10 then mp + 3 else mp - 9
  (if m ≤ 2 then y + 1 else y, m, d)

/-- `DateTime<Utc>::to_rfc2822` of a Unix-seconds timestamp, e.g.
`toRfc2822 0 = "Thu, 01 Jan 1970 00:00:00 +0000"`. -/
def toRfc2822 (t : Nat) : String :=
  let days := t / 86400
  let secs := t % 86400
  let ymd := civilFromDays days
  weekdayAbbrev days ++ ", " ++ pad2 ymd.2.2 ++ " " ++ monthAbbrev ymd.2.1 ++ " " ++
    Nat.repr ymd.1 ++ " " ++ pad2 (secs / 3600) ++ ":" ++ pad2 (secs % 3600 / 60) ++ ":" ++
    pad2 (secs % 60) ++ " +0000"

/-! ## The rate limiter core (`RateLimiter` in `src/lib.rs`) -/

/-- `RateLimiter::create_info(&self, remaining, start)`, with the wall clock
`Utc::now()` modelled by `now` (nanoseconds since epoch, equal to the
monotonic `Instant` reading of the same call).  Note
`reset_time.duration_since(start)` below is `(start + window) - start`,
i.e. always the whole window — so `reset_timestamp` lands at
`now + window`, independent of `start`. -/
def createInfo (cfg : RateLimitConfig) (remaining : Nat) (start : Nat) (now : Nat) :
    RateLimitInfo :=
  let reset_time := start + cfg.window
  let retry_after :=
    match cfg.retry_after_format with
    | .HttpDate => toRfc2822 ((now + cfg.window) / 1000000000)
    | .Seconds => Nat.repr (cfg.window / 1000000000)
  { retry_after := retry_after
    limit := cfg.max_requests
    remaining := remaining
    reset_timestamp := (now + (reset_time - start)) / 1000000000
    retry_after_format := cfg.retry_after_format }

/-- `RateLimiter::check_rate_limit(&self, key)` from `src/lib.rs`, as one
atomic transformation of the registry (the write lock is held across the
whole body).  `now` is the `Instant::now()` reading, also used for the
`Utc::now()` wall-clock reads of the same call. -/
def checkRateLimit (cfg : RateLimitConfig) (st : Registry) (key : String) (now : Nat) :
    CheckResult × Registry :=
  match st key with
  | some (last_request, count) =>
    if now - last_request > cfg.window then
      -- Window has passed, reset counter
      (.ok (createInfo cfg (sub32 cfg.max_requests 1) now now),
        st.insert key (now, 1))
    else if count ≥ cfg.max_requests then
      -- Rate limit exceeded
      let retry_after := cfg.window - (now - last_request)
      let reset_time := now + retry_after
      (.err { retry_after := retry_after
              limit := cfg.max_requests
              reset_time := reset_time
              retry_after_format := cfg.retry_after_format },
        st)
    else
      -- Increment counter
      (.ok (createInfo cfg (sub32 cfg.max_requests (count + 1)) last_request now),
        st.insert key (last_request, count + 1))
  | none =>
    -- First request
    (.ok (createInfo cfg (sub32 cfg.max_requests 1) now now),
      st.insert key (now, 1))

/-- `get_rate_limit_info(rejection)` from `src/lib.rs`: the read-only
projection of a rejection into response metadata.  It takes only the
rejection — it has no access to any limiter state. -/
def getRateLimitInfo (rejection : RateLimitRejection) : RateLimitInfo :=
  let retry_after :=
    match rejection.retry_after_format with
    | .HttpDate => toRfc2822 (rejection.reset_time / 1000000000)
    | .Seconds => Nat.repr (rejection.retry_after / 1000000000)
  { retry_after := retry_after
    limit := rejection.limit
    remaining := 0
    reset_timestamp := rejection.reset_time / 1000000000
    retry_after_format := rejection.retry_after_format }

/-- A sequence of `check_rate_limit` calls for one key at the given instants,
in order (each call completes before the next starts). -/
def runChecks (cfg : RateLimitConfig) (st : Registry) (key : String) :
    List Nat → List CheckResult × Registry
  | [] => ([], st)
  | t :: ts =>
    let r := checkRateLimit cfg st key t
    let rest := runChecks cfg r.2 key ts
    (r.1 :: rest.1, rest.2)

/-! ## Concrete instances used by witnesses and counterexamples -/

/-- Quota 1 per 5-second window, `Seconds` rendering. -/
def cfg1 : RateLimitConfig := ⟨1, 5000000000, .Seconds⟩

/-- Quota 2 per 5-second window, `Seconds` rendering. -/
def cfg2 : RateLimitConfig := ⟨2, 5000000000, .Seconds⟩

/-- Zero quota (the unvalidated `max_requests == 0` configuration). -/
def cfg0 : RateLimitConfig := ⟨0, 5000000000, .Seconds⟩

/-- Registry after one `cfg1` check for key `"k"` at instant 0. -/
def reg1 : Registry := (checkRateLimit cfg1 emptyReg "k" 0).2

/-- Registry after one `cfg2` check for key `"k"` at instant 0. -/
def reg2 : Registry := (checkRateLimit cfg2 emptyReg "k" 0).2

/-! ## Basic lemmas -/

theorem sub32_eq_sub (a b : Nat) (hb : b ≤ a) (ha : a < 4294967296) :
    sub32 a b = a - b := by
  unfold sub32
  omega

theorem Registry.insert_self (st : Registry) (key : String) (v : Nat × Nat) :
    (st.insert key v) key = some v := by
  simp [Registry.insert]

theorem Registry.insert_other (st : Registry) (key : String) (v : Nat × Nat)
    (k : String) (h : k ≠ key) : (st.insert key v) k = st k := by
  simp [Registry.insert, h]

theorem createInfo_remaining (cfg : RateLimitConfig) (r s n : Nat) :
    (createInfo cfg r s n).remaining = r := rfl

/-! ## C6: rejection does not mutate the registry -/

/-- C6: a `check_rate_limit` call that results in rejection leaves the whole
registry (in particular the rejected key's stored `(window_start, count)`
pair) exactly as it was before the call. -/
theorem rejection_leaves_registry_unchanged (cfg : RateLimitConfig) (st : Registry)
    (key : String) (now : Nat)
    (h : ((checkRateLimit cfg st key now).1).isErr = true) :
    (checkRateLimit cfg st key now).2 = st := by
  cases hk : st key with
  | none =>
    simp only [checkRateLimit, hk, CheckResult.isErr] at h
    exact Bool.noConfusion h
  | some v =>
    obtain ⟨ws, c⟩ := v
    simp only [checkRateLimit, hk] at h ⊢
    split at h
    · simp [CheckResult.isErr] at h
    · split at h
      · rename_i h1 h2
        rw [if_neg h1, if_pos h2]
      · simp [CheckResult.isErr] at h

/-- Witness for C6 at a concrete rejected call: quota-1 config, key `"k"`
already at count 1, second call 3 s into the window. -/
theorem rejection_leaves_registry_unchanged_witness :
    (checkRateLimit cfg1 reg1 "k" 3000000000).2 = reg1 :=
  rejection_leaves_registry_unchanged cfg1 reg1 "k" 3000000000 (by decide)

/-! ## C7: full reset after the window elapses -/

/-- C7: when a key's stored window has fully elapsed
(`now - window_start > window`), the next call is admitted with
`remaining = max_requests - 1` and the stored state becomes
`(window_start = now, count = 1)` — a full reset. -/
theorem elapsed_window_fully_resets (cfg : RateLimitConfig) (st : Registry)
    (key : String) (now ws c : Nat) (hk : st key = some (ws, c))
    (hexp : cfg.window < now - ws)
    (hN : 1 ≤ cfg.max_requests) (h32 : cfg.max_requests < 4294967296) :
    ((checkRateLimit cfg st key now).1).remainingOf = some (cfg.max_requests - 1) ∧
    (checkRateLimit cfg st key now).2 key = some (now, 1) := by
  simp only [checkRateLimit, hk, if_pos hexp]
  refine ⟨?_, ?_⟩
  · simp [CheckResult.remainingOf, createInfo, sub32_eq_sub _ _ hN h32]
  · simp [Registry.insert_self]

/-- Witness for C7: the quota-1 key `"k"` (exhausted at instant 0) checked
again 6 s later, past its 5 s window. -/
theorem elapsed_window_fully_resets_witness :
    ((checkRateLimit cfg1 reg1 "k" 6000000000).1).remainingOf =
      some (cfg1.max_requests - 1) ∧
    (checkRateLimit cfg1 reg1 "k" 6000000000).2 "k" = some (6000000000, 1) :=
  elapsed_window_fully_resets cfg1 reg1 "k" 6000000000 0 1 (by decide) (by decide)
    (by decide) (by decide)

/-! ## C3: retry_after on rejection -/

/-- C3 counterexample: at the exact window boundary
(`now - window_start = window`, still inside the window since expiry
requires `now - window_start > window`) the code rejects with
`retry_after = 0`, refuting the claim that `retry_after` is always
strictly greater than `0`.  Input: quota-1 config, window 5 s, key `"k"`
admitted at instant 0, checked again at instant 5 s. -/
theorem retry_after_zero_at_window_boundary :
    ((checkRateLimit cfg1 reg1 "k" 5000000000).1).errRetryAfter = some 0 := by decide

/-- C3 (amended): on every rejection (prior state, `now - window_start ≤
window`, `count ≥ max_requests`) the rejection is exactly
`retry_after = window - (now - window_start)` with
`reset_time = now + retry_after`; this `retry_after` is at most `window`,
and it is strictly positive whenever `now - window_start < window` — at
`now - window_start = window` exactly it is `0`. -/
theorem rejection_retry_after_bounds (cfg : RateLimitConfig) (st : Registry)
    (key : String) (now ws c : Nat) (hk : st key = some (ws, c))
    (hin : now - ws ≤ cfg.window) (hc : cfg.max_requests ≤ c) :
    (checkRateLimit cfg st key now).1 =
      CheckResult.err
        { retry_after := cfg.window - (now - ws)
          limit := cfg.max_requests
          reset_time := now + (cfg.window - (now - ws))
          retry_after_format := cfg.retry_after_format } ∧
    cfg.window - (now - ws) ≤ cfg.window ∧
    (now - ws < cfg.window → 0 < cfg.window - (now - ws)) := by
  refine ⟨?_, by omega, by omega⟩
  simp only [checkRateLimit, hk, if_neg (Nat.not_lt.mpr hin), if_pos hc]

/-- Witness for C3 (amended): rejection 3 s into the 5 s window of the
exhausted quota-1 key `"k"`; `retry_after = 2 s > 0`. -/
theorem rejection_retry_after_bounds_witness :
    (checkRateLimit cfg1 reg1 "k" 3000000000).1 =
      CheckResult.err
        { retry_after := cfg1.window - (3000000000 - 0)
          limit := cfg1.max_requests
          reset_time := 3000000000 + (cfg1.window - (3000000000 - 0))
          retry_after_format := cfg1.retry_after_format } ∧
    cfg1.window - (3000000000 - 0) ≤ cfg1.window ∧
    (3000000000 - 0 < cfg1.window → 0 < cfg1.window - (3000000000 - 0)) :=
  rejection_retry_after_bounds cfg1 reg1 "k" 3000000000 0 1 (by decide) (by decide)
    (by decide)

/-! ## C4: reset time reported on in-window admission -/

/-- C4: evaluation at the failing input.  Key `"k"` opens its window at
instant 0 under the quota-2 / 5 s config; the second call at instant 3 s is
admitted, and the code reports `reset_timestamp = 8` (epoch seconds), i.e.
`now + window`, whereas `window_start + window` is `5` — so the claim that
the admitted reset time equals `window_start + window` fails.  (Inside
`create_info`, `reset_time.duration_since(start)` is always the whole
window, so the `start` argument cancels out.) -/
theorem admitted_reset_time_is_now_plus_window :
    ((checkRateLimit cfg2 reg2 "k" 3000000000).1).resetOf = some 8 ∧
    (0 + cfg2.window) / 1000000000 = 5 := by decide

/-! ## C5: max_requests = 0 does not reject unconditionally -/

/-- C5: evaluation at the failing input.  With `max_requests = 0` the very
first call for the unseen key `"k"` takes the `None` arm of
`check_rate_limit`, which inserts `(now, 1)` and returns `Ok` — an
admission, not a rejection — computing `remaining` as the wrapped `u32`
value `0 - 1 = 4294967295` (a debug build would abort on this subtraction
instead). -/
theorem zero_quota_first_request_admitted :
    ((checkRateLimit cfg0 emptyReg "k" 0).1).isErr = false ∧
    ((checkRateLimit cfg0 emptyReg "k" 0).1).remainingOf = some 4294967295 := by
  decide

/-! ## C8: independence of distinct keys -/

/-- One `check_rate_limit` call only ever touches its own key's entry. -/
theorem checkRateLimit_frame (cfg : RateLimitConfig) (st : Registry) (A : String)
    (now : Nat) (B : String) (h : B ≠ A) :
    (checkRateLimit cfg st A now).2 B = st B := by
  cases hk : st A with
  | none =>
    simp only [checkRateLimit, hk]
    exact Registry.insert_other st A _ B h
  | some v =>
    obtain ⟨ws, c⟩ := v
    simp only [checkRateLimit, hk]
    split
    · exact Registry.insert_other st A _ B h
    · split
      · rfl
      · exact Registry.insert_other st A _ B h

/-- The outcome of a check depends on the registry only through the checked
key's own entry. -/
theorem checkRateLimit_congr (cfg : RateLimitConfig) (st1 st2 : Registry)
    (B : String) (now : Nat) (h : st1 B = st2 B) :
    (checkRateLimit cfg st1 B now).1 = (checkRateLimit cfg st2 B now).1 := by
  cases hk : st2 B with
  | none => simp only [checkRateLimit, h, hk]
  | some v =>
    obtain ⟨ws, c⟩ := v
    simp only [checkRateLimit, h, hk]
    split
    · rfl
    · split <;> rfl

/-- A whole sequence of checks for key `A` leaves every other key's entry
untouched. -/
theorem runChecks_frame (cfg : RateLimitConfig) (A B : String) (h : B ≠ A) :
    ∀ (ts : List Nat) (st : Registry), ((runChecks cfg st A ts).2) B = st B
  | [], _ => rfl
  | t :: ts, st => by
    simp only [runChecks]
    rw [runChecks_frame cfg A B h ts _, checkRateLimit_frame cfg st A t B h]

/-- C8: for distinct keys `B ≠ A`, any sequence of checks for `A` (at
arbitrary instants, e.g. exhausting `A`'s quota) leaves `B`'s registry entry
unchanged, and the outcome of a subsequent check for `B` is exactly what it
would have been without any of `A`'s checks. -/
theorem distinct_keys_do_not_interfere (cfg : RateLimitConfig) (st : Registry)
    (A B : String) (ts : List Nat) (nowB : Nat) (hne : B ≠ A) :
    ((runChecks cfg st A ts).2) B = st B ∧
    (checkRateLimit cfg ((runChecks cfg st A ts).2) B nowB).1 =
      (checkRateLimit cfg st B nowB).1 :=
  ⟨runChecks_frame cfg A B hne ts st,
    checkRateLimit_congr cfg _ st B nowB (runChecks_frame cfg A B hne ts st)⟩

/-- Witness for C8: key `"A"`'s quota-1 window is exhausted by two checks;
key `"B"`'s entry is untouched and `"B"`'s first check is admitted exactly
as on the original registry. -/
theorem distinct_keys_do_not_interfere_witness :
    ((runChecks cfg1 emptyReg "A" [0, 1]).2) "B" = emptyReg "B" ∧
    (checkRateLimit cfg1 ((runChecks cfg1 emptyReg "A" [0, 1]).2) "B" 2).1 =
      (checkRateLimit cfg1 emptyReg "B" 2).1 :=
  distinct_keys_do_not_interfere cfg1 emptyReg "A" "B" [0, 1] 2 (by decide)

/-! ## C10: the stored count stays between 1 and max_requests -/

/-- C10: with `max_requests ≥ 1`, the property "every stored count `c`
satisfies `1 ≤ c ≤ max_requests`" is preserved by every check call
(counts start at 1 on insert and reset and are incremented only below the
quota), and consequently any admitted `remaining` value is at most
`max_requests - 1` (and, being a `Nat`, at least `0`). -/
theorem registry_counts_in_range (cfg : RateLimitConfig) (st : Registry)
    (key : String) (now : Nat)
    (hN : 1 ≤ cfg.max_requests) (h32 : cfg.max_requests < 4294967296)
    (hwf : ∀ k ws c, st k = some (ws, c) → 1 ≤ c ∧ c ≤ cfg.max_requests) :
    (∀ k ws c, (checkRateLimit cfg st key now).2 k = some (ws, c) →
      1 ≤ c ∧ c ≤ cfg.max_requests) ∧
    (∀ n, ((checkRateLimit cfg st key now).1).remainingOf = some n →
      n ≤ cfg.max_requests - 1) := by
  have step : ∀ (v : Nat × Nat), 1 ≤ v.2 → v.2 ≤ cfg.max_requests →
      ∀ k ws c, (st.insert key v) k = some (ws, c) →
        1 ≤ c ∧ c ≤ cfg.max_requests := by
    intro v h1 h2 k ws c hmem
    by_cases hkk : k = key
    · rw [hkk, Registry.insert_self] at hmem
      obtain rfl : v = (ws, c) := Option.some.inj hmem
      exact ⟨h1, h2⟩
    · exact hwf k ws c ((Registry.insert_other st key v k hkk) ▸ hmem)
  cases hk : st key with
  | none =>
    simp only [checkRateLimit, hk]
    refine ⟨step (now, 1) (le_refl 1) hN, ?_⟩
    intro n hn
    simp only [CheckResult.remainingOf, createInfo_remaining, Option.some.injEq] at hn
    rw [← hn, sub32_eq_sub _ _ hN h32]
  | some v =>
    obtain ⟨ws0, c0⟩ := v
    simp only [checkRateLimit, hk]
    split
    · refine ⟨step (now, 1) (le_refl 1) hN, ?_⟩
      intro n hn
      simp only [CheckResult.remainingOf, createInfo_remaining, Option.some.injEq] at hn
      rw [← hn, sub32_eq_sub _ _ hN h32]
    · split
      · exact ⟨hwf, fun n hn => by simp [CheckResult.remainingOf] at hn⟩
      · rename_i hlt hcount
        have hc0N : c0 < cfg.max_requests := Nat.lt_of_not_le hcount
        refine ⟨step (ws0, c0 + 1) (by omega) (by omega), ?_⟩
        intro n hn
        simp only [CheckResult.remainingOf, createInfo_remaining, Option.some.injEq] at hn
        rw [← hn, sub32_eq_sub _ _ (by omega) h32]
        omega

/-- Witness for C10: after the first quota-2 check for `"k"`, the stored
count is 1 (between 1 and `max_requests`), and the admitted `remaining = 1`
is at most `max_requests - 1`. -/
theorem registry_counts_in_range_witness :
    (1 ≤ 1 ∧ 1 ≤ cfg2.max_requests) ∧ 1 ≤ cfg2.max_requests - 1 :=
  ⟨(registry_counts_in_range cfg2 emptyReg "k" 0 (by decide) (by decide)
      (fun k ws c h => nomatch h)).1 "k" 0 1 (by decide),
    (registry_counts_in_range cfg2 emptyReg "k" 0 (by decide) (by decide)
      (fun k ws c h => nomatch h)).2 1 (by decide)⟩

/-! ## C1: a single key inside one window -/

/-- Counting lemma: from a state `(t0, c)` with `1 ≤ c ≤ max_requests`, a
sequence of checks whose instants all lie within `window` of `t0` admits
exactly the next `max_requests - c` calls (with `remaining` counting down
from `max_requests - c - 1`) and rejects every later one. -/
theorem runChecks_within_window (cfg : RateLimitConfig) (key : String) (t0 : Nat)
    (h32 : cfg.max_requests < 4294967296) :
    ∀ (ts : List Nat) (st : Registry) (c : Nat),
      st key = some (t0, c) → 1 ≤ c → c ≤ cfg.max_requests →
      (∀ t ∈ ts, t - t0 ≤ cfg.window) →
      ∀ i : Nat,
        (i < ts.length → i < cfg.max_requests - c →
          (((runChecks cfg st key ts).1)[i]?).bind CheckResult.remainingOf =
            some (cfg.max_requests - (c + i + 1))) ∧
        (i < ts.length → cfg.max_requests - c ≤ i →
          (((runChecks cfg st key ts).1)[i]?).map CheckResult.isErr = some true) := by
  intro ts
  induction ts with
  | nil =>
    intro st c hk hc1 hcN hin i
    exact ⟨fun h => absurd h (by simp), fun h => absurd h (by simp)⟩
  | cons t ts ih =>
    intro st c hk hc1 hcN hin i
    have hwin : t - t0 ≤ cfg.window := hin t (List.mem_cons_self t ts)
    have hin' : ∀ u ∈ ts, u - t0 ≤ cfg.window :=
      fun u hu => hin u (List.mem_cons_of_mem t hu)
    by_cases hfull : cfg.max_requests ≤ c
    · -- the key is already exhausted: this and all later calls are rejected
      have hstep : checkRateLimit cfg st key t =
          (.err { retry_after := cfg.window - (t - t0)
                  limit := cfg.max_requests
                  reset_time := t + (cfg.window - (t - t0))
                  retry_after_format := cfg.retry_after_format }, st) := by
        simp only [checkRateLimit, hk, if_neg (Nat.not_lt.mpr hwin), if_pos hfull]
      simp only [runChecks, hstep]
      match i with
      | 0 =>
        refine ⟨fun _ h0 => absurd h0 (by omega), fun _ _ => ?_⟩
        simp [CheckResult.isErr]
      | i + 1 =>
        have htail := ih st c hk hc1 hcN hin' i
        simp only [List.getElem?_cons_succ, List.length_cons]
        exact ⟨fun hlen h0 => absurd h0 (by omega),
          fun hlen _ => (htail.2 (by omega) (by omega))⟩
    · -- below quota: this call is admitted and the count increments
      have hlt : c < cfg.max_requests := Nat.lt_of_not_le hfull
      have hstep : checkRateLimit cfg st key t =
          (.ok (createInfo cfg (sub32 cfg.max_requests (c + 1)) t0 t),
            st.insert key (t0, c + 1)) := by
        simp only [checkRateLimit, hk, if_neg (Nat.not_lt.mpr hwin),
          if_neg (Nat.not_le.mpr hlt)]
      simp only [runChecks, hstep]
      match i with
      | 0 =>
        refine ⟨fun _ _ => ?_, fun _ h0 => absurd h0 (by omega)⟩
        simp only [List.getElem?_cons_zero, Option.some_bind, CheckResult.remainingOf,
          createInfo_remaining, Nat.add_zero]
        rw [sub32_eq_sub _ _ (by omega) h32]
      | i + 1 =>
        have htail := ih (st.insert key (t0, c + 1)) (c + 1)
          (Registry.insert_self st key (t0, c + 1)) (by omega) (by omega) hin' i
        simp only [List.getElem?_cons_succ, List.length_cons]
        constructor
        · intro hlen hok
          have := htail.1 (by omega) (by omega)
          rwa [show cfg.max_requests - (c + 1 + i + 1) =
            cfg.max_requests - (c + (i + 1) + 1) by omega] at this
        · intro hlen herr
          exact htail.2 (by omega) (by omega)

/-- C1: with quota `N ≥ 1`, a previously unseen key whose calls all fall
within one window of the first call (`t - t0 ≤ window`) is admitted on
exactly the first `N` calls — the `i`-th admission (0-based) reporting
`remaining = N - (i + 1)`, decreasing from `N - 1` to `0` — and rejected on
the `(N+1)`-th and every later call. -/
theorem single_key_admitted_exactly_quota_times (cfg : RateLimitConfig)
    (st : Registry) (key : String) (t0 : Nat) (ts : List Nat)
    (hN : 1 ≤ cfg.max_requests) (h32 : cfg.max_requests < 4294967296)
    (hkey : st key = none) (hin : ∀ t ∈ ts, t - t0 ≤ cfg.window) :
    ∀ i : Nat,
      (i < (t0 :: ts).length → i < cfg.max_requests →
        (((runChecks cfg st key (t0 :: ts)).1)[i]?).bind CheckResult.remainingOf =
          some (cfg.max_requests - (i + 1))) ∧
      (i < (t0 :: ts).length → cfg.max_requests ≤ i →
        (((runChecks cfg st key (t0 :: ts)).1)[i]?).map CheckResult.isErr =
          some true) := by
  intro i
  have hstep : checkRateLimit cfg st key t0 =
      (.ok (createInfo cfg (sub32 cfg.max_requests 1) t0 t0),
        st.insert key (t0, 1)) := by
    simp only [checkRateLimit, hkey]
  simp only [runChecks, hstep]
  match i with
  | 0 =>
    refine ⟨fun _ _ => ?_, fun _ h0 => absurd h0 (by omega)⟩
    simp only [List.getElem?_cons_zero, Option.some_bind, CheckResult.remainingOf,
      createInfo_remaining, Nat.zero_add]
    rw [sub32_eq_sub _ _ hN h32]
  | i + 1 =>
    have htail := runChecks_within_window cfg key t0 h32 ts
      (st.insert key (t0, 1)) 1 (Registry.insert_self st key (t0, 1))
      (le_refl 1) hN hin i
    simp only [List.getElem?_cons_succ, List.length_cons]
    constructor
    · intro hlen hok
      have := htail.1 (by omega) (by omega)
      rwa [show cfg.max_requests - (1 + i + 1) =
        cfg.max_requests - (i + 1 + 1) by omega] at this
    · intro hlen herr
      exact htail.2 (by omega) (by omega)

/-- Witness for C1: quota 2, window 5 s, fresh key `"k"`, three calls at
instants 0, 1 s and 2 s: the first two are admitted with `remaining` 1 then
0, the third is rejected. -/
theorem single_key_admitted_exactly_quota_times_witness :
    ((((runChecks cfg2 emptyReg "k" (0 :: [1000000000, 2000000000])).1)[0]?).bind
        CheckResult.remainingOf = some (cfg2.max_requests - 1)) ∧
    ((((runChecks cfg2 emptyReg "k" (0 :: [1000000000, 2000000000])).1)[1]?).bind
        CheckResult.remainingOf = some (cfg2.max_requests - 2)) ∧
    ((((runChecks cfg2 emptyReg "k" (0 :: [1000000000, 2000000000])).1)[2]?).map
        CheckResult.isErr = some true) :=
  ⟨(single_key_admitted_exactly_quota_times cfg2 emptyReg "k" 0
      [1000000000, 2000000000] (by decide) (by decide) rfl (by decide) 0).1
      (by decide) (by decide),
    (single_key_admitted_exactly_quota_times cfg2 emptyReg "k" 0
      [1000000000, 2000000000] (by decide) (by decide) rfl (by decide) 1).1
      (by decide) (by decide),
    (single_key_admitted_exactly_quota_times cfg2 emptyReg "k" 0
      [1000000000, 2000000000] (by decide) (by decide) rfl (by decide) 2).2
      (by decide) (by decide)⟩

/-! ## Decimal rendering round-trip

`u64::to_string` is modelled by `Nat.repr`; the following lemmas show that
this rendering always parses back (`String.toNat?`) as the same nonnegative
integer. -/

theorem toDigitsCore_append : ∀ (fuel n : Nat) (ds : List Char),
    Nat.toDigitsCore 10 fuel n ds = Nat.toDigitsCore 10 fuel n [] ++ ds := by
  intro fuel
  induction fuel with
  | zero => intro n ds; rfl
  | succ fuel ih =>
    intro n ds
    simp only [Nat.toDigitsCore]
    split
    · rfl
    · rw [ih (n / 10) (Nat.digitChar (n % 10) :: ds),
        ih (n / 10) [Nat.digitChar (n % 10)], List.append_assoc]
      rfl

theorem toDigitsCore_fuel : ∀ (n f1 f2 : Nat), n < f1 → n < f2 →
    Nat.toDigitsCore 10 f1 n [] = Nat.toDigitsCore 10 f2 n [] := by
  intro n
  induction n using Nat.strong_induction_on with
  | _ n ih =>
    intro f1 f2 h1 h2
    match f1, f2 with
    | 0, _ => omega
    | _ + 1, 0 => omega
    | f1 + 1, f2 + 1 =>
      simp only [Nat.toDigitsCore]
      split
      · rfl
      · rename_i hne
        rw [toDigitsCore_append f1, toDigitsCore_append f2]
        congr 1
        exact ih (n / 10) (by omega) f1 f2 (by omega) (by omega)

/-- Unfolding equation for `Nat.toDigits` at base 10, fuel eliminated. -/
theorem toDigits_eq (n : Nat) :
    Nat.toDigits 10 n = if n < 10 then [Nat.digitChar n]
      else Nat.toDigits 10 (n / 10) ++ [Nat.digitChar (n % 10)] := by
  show Nat.toDigitsCore 10 (n + 1) n [] = _
  simp only [Nat.toDigitsCore]
  by_cases h : n < 10
  · rw [if_pos (by omega : n / 10 = 0), if_pos h, Nat.mod_eq_of_lt h]
  · rw [if_neg (by omega : ¬ n / 10 = 0), if_neg h, toDigitsCore_append]
    congr 1
    exact toDigitsCore_fuel (n / 10) n (n / 10 + 1) (by omega) (by omega)

theorem digitChar_isDigit (m : Nat) (h : m < 10) : (Nat.digitChar m).isDigit = true := by
  interval_cases m <;> decide

theorem digitChar_val (m : Nat) (h : m < 10) :
    (Nat.digitChar m).toNat - Char.toNat (Char.ofNat 48) = m := by
  interval_cases m <;> decide

theorem toDigits_ne_nil (n : Nat) : Nat.toDigits 10 n ≠ [] := by
  rw [toDigits_eq]
  split
  · simp
  · simp

theorem toDigits_all_isDigit (n : Nat) :
    ∀ c ∈ Nat.toDigits 10 n, c.isDigit = true := by
  induction n using Nat.strong_induction_on with
  | _ n ih =>
    rw [toDigits_eq]
    split
    · rename_i h
      intro c hc
      rw [List.mem_singleton] at hc
      subst hc
      exact digitChar_isDigit n h
    · rename_i h
      intro c hc
      rcases List.mem_append.mp hc with h1 | h2
      · exact ih (n / 10) (by omega) c h1
      · rw [List.mem_singleton] at h2
        subst h2
        exact digitChar_isDigit (n % 10) (by omega)

theorem toDigits_foldl (n : Nat) : ∀ a : Nat,
    List.foldl (fun n c => n * 10 + (c.toNat - Char.toNat (Char.ofNat 48))) a
        (Nat.toDigits 10 n) =
      a * 10 ^ (Nat.toDigits 10 n).length + n := by
  induction n using Nat.strong_induction_on with
  | _ n ih =>
    intro a
    rw [toDigits_eq]
    split
    · rename_i h
      simp only [List.foldl_cons, List.foldl_nil, List.length_cons, List.length_nil,
        Nat.zero_add, pow_one]
      rw [digitChar_val n h]
    · rename_i h
      rw [List.foldl_append, ih (n / 10) (by omega) a]
      simp only [List.foldl_cons, List.foldl_nil, List.length_append, List.length_cons,
        List.length_nil, Nat.zero_add]
      rw [digitChar_val (n % 10) (by omega), pow_succ, Nat.add_mul, ← Nat.mul_assoc,
        Nat.add_assoc]
      congr 1
      omega

/-- The decimal rendering of a `Nat` always parses back as itself. -/
theorem toNat?_repr (n : Nat) : String.toNat? (Nat.repr n) = some n := by
  show String.toNat? (List.asString (Nat.toDigits 10 n)) = some n
  have hne : List.asString (Nat.toDigits 10 n) ≠ "" := by
    intro h
    exact toDigits_ne_nil n (congrArg String.data h)
  have hempty : (List.asString (Nat.toDigits 10 n)).isEmpty = false := by
    rw [Bool.eq_false_iff]
    intro h
    exact hne ((String.isEmpty_iff _).mp h)
  have hall : (List.asString (Nat.toDigits 10 n)).all Char.isDigit = true := by
    rw [String.all_eq, List.all_eq_true]
    exact toDigits_all_isDigit n
  rw [String.toNat?, String.isNat, hempty, hall]
  have hcond : (!false && true) = true := rfl
  rw [if_pos hcond, String.foldl_eq]
  show some (List.foldl (fun n c => n * 10 + (c.toNat -
    Char.toNat (Char.ofNat 48))) 0 (Nat.toDigits 10 n)) = some n
  rw [toDigits_foldl n 0, Nat.zero_mul, Nat.zero_add]

/-! ## C9: rendering of retry metadata from a rejection -/

/-- The exact rejection value produced by the reject branch. -/
theorem checkRateLimit_reject_eq (cfg : RateLimitConfig) (st : Registry)
    (key : String) (now ws c : Nat) (hk : st key = some (ws, c))
    (hin : now - ws ≤ cfg.window) (hc : cfg.max_requests ≤ c) :
    (checkRateLimit cfg st key now).1 =
      CheckResult.err
        { retry_after := cfg.window - (now - ws)
          limit := cfg.max_requests
          reset_time := now + (cfg.window - (now - ws))
          retry_after_format := cfg.retry_after_format } := by
  simp only [checkRateLimit, hk, if_neg (Nat.not_lt.mpr hin), if_pos hc]

/-- C9: `get_rate_limit_info` is a pure projection of the rejection (its
signature gives it no access to the limiter state, so it mutates nothing);
for every rejection produced by `check_rate_limit`, its `reset_time` is not
earlier than the time of rejection, the `Seconds` rendering is the decimal
rendering of `retry_after` in whole seconds and parses back as that
nonnegative integer, and the `HttpDate` rendering is the RFC 2822 rendering
of the rejection's reset time, whose timestamp is not earlier than the
rejection instant's. -/
theorem rejection_info_rendering (cfg : RateLimitConfig) (st : Registry)
    (key : String) (now ws c : Nat) (hk : st key = some (ws, c))
    (hin : now - ws ≤ cfg.window) (hc : cfg.max_requests ≤ c) :
    ∀ rej, (checkRateLimit cfg st key now).1 = CheckResult.err rej →
      now ≤ rej.reset_time ∧
      (rej.retry_after_format = .Seconds →
        (getRateLimitInfo rej).retry_after = Nat.repr (rej.retry_after / 1000000000) ∧
        String.toNat? ((getRateLimitInfo rej).retry_after) =
          some (rej.retry_after / 1000000000)) ∧
      (rej.retry_after_format = .HttpDate →
        (getRateLimitInfo rej).retry_after = toRfc2822 (rej.reset_time / 1000000000) ∧
        now / 1000000000 ≤ (getRateLimitInfo rej).reset_timestamp) := by
  intro rej hrej
  rw [checkRateLimit_reject_eq cfg st key now ws c hk hin hc] at hrej
  obtain rfl := (CheckResult.err.injEq .. ▸ hrej).symm
  refine ⟨Nat.le_add_right _ _, fun hfmt => ?_, fun hfmt => ?_⟩
  · rw [getRateLimitInfo, hfmt]
    exact ⟨rfl, toNat?_repr _⟩
  · rw [getRateLimitInfo, hfmt]
    exact ⟨rfl, Nat.div_le_div_right (Nat.le_add_right _ _)⟩

/-- Quota 1 per 5-second window, RFC 2822 (`HttpDate`) rendering. -/
def cfgH : RateLimitConfig := ⟨1, 5000000000, .HttpDate⟩

/-- Registry after one `cfgH` check for key `"k"` at instant 0. -/
def regH : Registry := (checkRateLimit cfgH emptyReg "k" 0).2

/-- The rejection produced by `cfg1` for key `"k"` at instant 3 s. -/
def rejS : RateLimitRejection := ⟨2000000000, 1, 5000000000, .Seconds⟩

/-- The rejection produced by `cfgH` for key `"k"` at instant 3 s. -/
def rejH : RateLimitRejection := ⟨2000000000, 1, 5000000000, .HttpDate⟩

/-- Witness for C9: the concrete rejections 3 s into the 5 s window, in both
rendering formats. -/
theorem rejection_info_rendering_witness :
    ((3000000000 : Nat) ≤ rejS.reset_time) ∧
    ((getRateLimitInfo rejS).retry_after = Nat.repr (rejS.retry_after / 1000000000)) ∧
    (String.toNat? ((getRateLimitInfo rejS).retry_after) =
      some (rejS.retry_after / 1000000000)) ∧
    ((getRateLimitInfo rejH).retry_after = toRfc2822 (rejH.reset_time / 1000000000)) ∧
    ((3000000000 : Nat) / 1000000000 ≤ (getRateLimitInfo rejH).reset_timestamp) :=
  have hS := rejection_info_rendering cfg1 reg1 "k" 3000000000 0 1 (by decide)
    (by decide) (by decide) rejS (by decide)
  have hH := rejection_info_rendering cfgH regH "k" 3000000000 0 1 (by decide)
    (by decide) (by decide) rejH (by decide)
  ⟨hS.1, (hS.2.1 rfl).1, (hS.2.1 rfl).2, (hH.2.2 rfl).1, (hH.2.2 rfl).2⟩

end WarpRateLimit
